import Mathlib

set_option maxRecDepth 100000

/-!
Verification of the authentication and credential-lifecycle subsystem of the
Chatbot backend (`backend/app/core/security.py`, `backend/app/services/user_service.py`,
`backend/app/utils/dependencies.py`, `backend/app/api/routes/auth.py`).

The Python source is shallowly embedded: pure helpers become Lean functions,
the database session becomes an explicit list of user rows, raised exceptions
become `Except` error values.  Library primitives that the source calls are
modelled at the granularity the verified properties need:

* `hashlib.sha256` is implemented in full (FIPS 180-4), operating on the
  UTF-8 bytes of the input exactly as `plain.encode("utf-8")` does, so that
  the 64-hex-character shape of `_prehash`'s output is a theorem, not an
  assumption.
* the bcrypt primitive behind `passlib.CryptContext(schemes=["bcrypt"])` is
  modelled with an idealised (structurally injective) digest and a fixed salt:
  a stored hash records the bcrypt header and the exact key that was hashed,
  verification re-derives the key and compares, the 72-byte input limit
  errors out (the stricter of the two behaviours the source comment names:
  "bcrypt silently truncates OR raises ValueError"), and an unrecognisable
  stored hash raises (passlib's `UnknownHashError`, a `ValueError` subclass).
  Salts play no role in any verified property, so fixing the salt loses
  nothing.
* `jose.jwt` tokens are modelled structurally: a signed token carries its
  algorithm, its claim set and a signature, where signing is the perfect MAC
  `secret ↦ (secret, claims)`; a distinguished `malformed` constructor stands
  for byte strings that do not parse as a JWT at all.  Decode checks the
  allowed-algorithm list, the signature, and expiry (`jose` semantics:
  expired iff `exp < now`), raising `JWTError` in every failure case.

Python exceptions are split into `HTTPException`s (which the framework maps
to their status code) and uncaught low-level errors such as `ValueError` /
`KeyError` (which surface as an internal server error).
-/

/-! ## SHA-256 (model of `hashlib.sha256(...).hexdigest()`) -/

/-- Truncation to a 32-bit word. -/
def w32 (n : Nat) : Nat := n % 4294967296

/-- Right rotation of a 32-bit word. -/
def rotr (n x : Nat) : Nat := ((x >>> n) ||| (x <<< (32 - n))) % 4294967296

/-- Bitwise complement within 32 bits. -/
def not32 (x : Nat) : Nat := 4294967295 - x % 4294967296

/-- SHA-256 choice function. -/
def shaCh (x y z : Nat) : Nat := (x &&& y) ^^^ (not32 x &&& z)

/-- SHA-256 majority function. -/
def shaMaj (x y z : Nat) : Nat := (x &&& y) ^^^ (x &&& z) ^^^ (y &&& z)

/-- SHA-256 Σ₀. -/
def bigSigma0 (x : Nat) : Nat := rotr 2 x ^^^ rotr 13 x ^^^ rotr 22 x

/-- SHA-256 Σ₁. -/
def bigSigma1 (x : Nat) : Nat := rotr 6 x ^^^ rotr 11 x ^^^ rotr 25 x

/-- SHA-256 σ₀. -/
def smallSigma0 (x : Nat) : Nat := rotr 7 x ^^^ rotr 18 x ^^^ (x >>> 3)

/-- SHA-256 σ₁. -/
def smallSigma1 (x : Nat) : Nat := rotr 17 x ^^^ rotr 19 x ^^^ (x >>> 10)

/-- The 64 SHA-256 round constants. -/
def sha256K : List Nat :=
  [1116352408, 1899447441, 3049323471, 3921009573, 961987163, 1508970993,
   2453635748, 2870763221, 3624381080, 310598401, 607225278, 1426881987,
   1925078388, 2162078206, 2614888103, 3248222580, 3835390401, 4022224774,
   264347078, 604807628, 770255983, 1249150122, 1555081692, 1996064986,
   2554220882, 2821834349, 2952996808, 3210313671, 3336571891, 3584528711,
   113926993, 338241895, 666307205, 773529912, 1294757372, 1396182291,
   1695183700, 1986661051, 2177026350, 2456956037, 2730485921, 2820302411,
   3259730800, 3345764771, 3516065817, 3600352804, 4094571909, 275423344,
   430227734, 506948616, 659060556, 883997877, 958139571, 1322822218,
   1537002063, 1747873779, 1955562222, 2024104815, 2227730452, 2361852424,
   2428436474, 2756734187, 3204031479, 3329325298]

/-- The eight SHA-256 working variables. -/
structure Hash8 where
  a : Nat
  b : Nat
  c : Nat
  d : Nat
  e : Nat
  f : Nat
  g : Nat
  h : Nat
deriving DecidableEq, Repr

/-- The SHA-256 initial hash value. -/
def sha256InitH : Hash8 :=
  ⟨1779033703, 3144134277, 1013904242, 2773480762,
   1359893119, 2600822924, 528734635, 1541459225⟩

/-- A 64-bit length as eight big-endian bytes. -/
def be64 (n : Nat) : List Nat :=
  [(n >>> 56) % 256, (n >>> 48) % 256, (n >>> 40) % 256, (n >>> 32) % 256,
   (n >>> 24) % 256, (n >>> 16) % 256, (n >>> 8) % 256, n % 256]

/-- SHA-256 padding: append `0x80`, zeros to 56 mod 64, then the bit length. -/
def padMessage (msg : List Nat) : List Nat :=
  let L := msg.length
  let k := (64 + 55 - L % 64) % 64
  msg ++ 0x80 :: List.replicate k 0 ++ be64 (8 * L)

/-- Big-endian 32-bit words from a byte list. -/
def bytesToWords : List Nat → List Nat
  | b0 :: b1 :: b2 :: b3 :: rest =>
      (((b0 * 256 + b1) * 256 + b2) * 256 + b3) :: bytesToWords rest
  | _ => []

/-- Split a byte list into 64-byte blocks, structurally recursive on a fuel
bound so that the kernel can evaluate it. -/
def chunks64Fuel : Nat → List Nat → List (List Nat)
  | 0, _ => []
  | fuel + 1, l => if l.length = 0 then [] else l.take 64 :: chunks64Fuel fuel (l.drop 64)

/-- Split a byte list into 64-byte blocks. -/
def chunks64 (l : List Nat) : List (List Nat) := chunks64Fuel l.length l

/-- The 64-entry message schedule of one block. -/
def scheduleW (block : List Nat) : Array Nat :=
  (List.range 48).foldl
    (fun w j =>
      w.push (w32 (smallSigma1 (w.getD (j + 14) 0) + w.getD (j + 9) 0 +
        smallSigma0 (w.getD (j + 1) 0) + w.getD j 0)))
    (bytesToWords block).toArray

/-- One SHA-256 round. -/
def sha256Round (s : Hash8) (kt wt : Nat) : Hash8 :=
  let t1 := w32 (s.h + bigSigma1 s.e + shaCh s.e s.f s.g + kt + wt)
  let t2 := w32 (bigSigma0 s.a + shaMaj s.a s.b s.c)
  ⟨w32 (t1 + t2), s.a, s.b, s.c, w32 (s.d + t1), s.e, s.f, s.g⟩

/-- Compression of one 64-byte block into the running hash. -/
def sha256Compress (s0 : Hash8) (block : List Nat) : Hash8 :=
  let w := scheduleW block
  let s := (List.range 64).foldl (fun s t => sha256Round s (sha256K.getD t 0) (w.getD t 0)) s0
  ⟨w32 (s0.a + s.a), w32 (s0.b + s.b), w32 (s0.c + s.c), w32 (s0.d + s.d),
   w32 (s0.e + s.e), w32 (s0.f + s.f), w32 (s0.g + s.g), w32 (s0.h + s.h)⟩

/-- SHA-256 of a byte list, as the eight final words. -/
def sha256 (msg : List Nat) : Hash8 :=
  (chunks64 (padMessage msg)).foldl sha256Compress sha256InitH

/-- A hex digit character (lowercase), as Python's `hexdigest` emits. -/
def hexChar (n : Nat) : Char :=
  if n < 10 then Char.ofNat (48 + n) else Char.ofNat (87 + n)

/-- A 32-bit word as eight hex characters, most significant nibble first. -/
def toHex8 (x : Nat) : List Char :=
  (List.range 8).map fun i => hexChar ((x >>> (28 - 4 * i)) % 16)

/-- SHA-256 hex digest of a byte list: 64 lowercase hex characters. -/
def sha256hexBytes (msg : List Nat) : String :=
  let s := sha256 msg
  String.mk (toHex8 s.a ++ toHex8 s.b ++ toHex8 s.c ++ toHex8 s.d ++
    toHex8 s.e ++ toHex8 s.f ++ toHex8 s.g ++ toHex8 s.h)

/-- UTF-8 encoding of one character, as `str.encode("utf-8")` produces. -/
def utf8EncodeChar (c : Char) : List Nat :=
  let n := c.toNat
  if n < 128 then [n]
  else if n < 2048 then [192 + n / 64, 128 + n % 64]
  else if n < 65536 then [224 + n / 4096, 128 + n / 64 % 64, 128 + n % 64]
  else [240 + n / 262144, 128 + n / 4096 % 64, 128 + n / 64 % 64, 128 + n % 64]

/-- UTF-8 bytes of a string (`plain.encode("utf-8")`). -/
def utf8Bytes (s : String) : List Nat := (s.data.map utf8EncodeChar).flatten

/-- `_prehash` from `security.py`: `hashlib.sha256(plain.encode("utf-8")).hexdigest()`. -/
def _prehash (plain : String) : String := sha256hexBytes (utf8Bytes plain)

/-! ## Exceptions

A raised Python exception is either a `fastapi.HTTPException` (the framework
turns it into a response with the recorded status code, detail body and
headers) or an uncaught low-level error (`ValueError`, `KeyError`, …), which
the framework surfaces as an internal server error, not as a 4xx response. -/

/-- Model of `fastapi.HTTPException`: status code, detail body, headers. -/
structure HTTPException where
  status_code : Nat
  detail : String
  headers : List (String × String)
deriving DecidableEq, Repr

/-- A raised exception: an `HTTPException`, or an uncaught low-level error. -/
inductive PyError where
  | http (e : HTTPException)
  | uncaught (msg : String)
deriving DecidableEq, Repr

deriving instance DecidableEq for Except

/-! ## Password hashing (`security.py`, backed by `passlib` bcrypt)

The bcrypt primitive is modelled with an idealised digest and a fixed salt:
a stored hash is the bcrypt header followed by the exact key that was hashed,
and verification re-derives that key and compares it with the offered key.
The 72-byte input limit raises `ValueError`; a stored string that does not
carry the bcrypt header raises passlib's `UnknownHashError` (a `ValueError`
subclass), exactly as `CryptContext.verify` does on an unrecognisable hash. -/

/-- The modelled bcrypt hash of `key`: the `$2b$12$` header followed by the
key itself (idealised digest, fixed salt). -/
def mkBcryptHash (key : String) : String :=
  String.mk ('$' :: '2' :: 'b' :: '$' :: '1' :: '2' :: '$' :: key.data)

/-- Recognise a stored bcrypt hash and recover the key it recorded; `none`
models passlib failing to identify the hash scheme. -/
def parseBcryptHash (hashed : String) : Option String :=
  match hashed.data with
  | c0 :: c1 :: c2 :: c3 :: c4 :: c5 :: c6 :: rest =>
    if c0 = '$' ∧ c1 = '2' ∧ c2 = 'b' ∧ c3 = '$' ∧ c4 = '1' ∧ c5 = '2' ∧ c6 = '$' then
      some (String.mk rest)
    else none
  | _ => none

/-- The bcrypt primitive on a key: errors beyond 72 input bytes, otherwise
produces the stored hash. -/
def bcryptHashKey (key : String) : Except PyError String :=
  if 72 < (utf8Bytes key).length then
    .error (.uncaught "ValueError: password cannot be longer than 72 bytes")
  else .ok (mkBcryptHash key)

/-- The bcrypt primitive verifying a key against a stored hash
(`CryptContext.verify`): unidentifiable hash raises, over-long key raises,
otherwise the recorded key is compared with the offered key. -/
def bcryptVerifyKey (key hashed : String) : Except PyError Bool :=
  match parseBcryptHash hashed with
  | none => .error (.uncaught "UnknownHashError: hash could not be identified")
  | some stored =>
    if 72 < (utf8Bytes key).length then
      .error (.uncaught "ValueError: password cannot be longer than 72 bytes")
    else .ok (stored == key)

/-- `hash_password` from `security.py`: SHA-256 prehash, then bcrypt. -/
def hash_password (plain : String) : Except PyError String :=
  bcryptHashKey (_prehash plain)

/-- `verify_password` from `security.py`: SHA-256 prehash, then bcrypt verify. -/
def verify_password (plain hashed : String) : Except PyError Bool :=
  bcryptVerifyKey (_prehash plain) hashed

/-! ## JWT tokens (`security.py`, backed by `jose.jwt`)

Tokens are modelled structurally.  Signing is the perfect MAC
`secret ↦ (secret, claims)`: a signature matches exactly when it was produced
over the same claim set with the same secret, which is the property the
source relies on `HMAC` for.  A `malformed` token stands for any string that
does not parse as a JWT at all.  Time is seconds since the epoch. -/

/-- The claim set the source puts in a token: `sub`, `exp`, `type`.
`sub` is optional because a decoded payload need not contain it. -/
structure JwtClaims where
  sub : Option String
  exp : Nat
  typ : String
deriving DecidableEq, Repr

/-- The modelled signature over a claim set. -/
def macSign (secret : String) (claims : JwtClaims) : String × JwtClaims :=
  (secret, claims)

/-- A structurally well-formed JWT: algorithm, claims, signature. -/
structure Jwt where
  alg : String
  claims : JwtClaims
  sig : String × JwtClaims
deriving DecidableEq, Repr

/-- A bearer token: a well-formed JWT or an unparseable string. -/
inductive Token where
  | signed (j : Jwt)
  | malformed (raw : String)
deriving DecidableEq, Repr

/-- `jose.jwt.encode(payload, secret, algorithm=alg)`. -/
def joseEncode (claims : JwtClaims) (secret alg : String) : Token :=
  .signed ⟨alg, claims, macSign secret claims⟩

/-- `jose.jwt.decode(token, secret, algorithms=[alg])`: rejects unparseable
tokens, algorithms outside the allowed list, bad signatures and expired
claims (`jose` treats a token as expired iff `exp < now`), each by raising
`JWTError`; the error payload is which `JWTError` was raised. -/
def joseDecode (token : Token) (secret : String) (algs : List String) (now : Nat) :
    Except String JwtClaims :=
  match token with
  | .malformed _ => .error "JWTError: Not enough segments"
  | .signed j =>
    if ¬ algs.contains j.alg then .error "JWTError: The specified alg value is not allowed"
    else if j.sig ≠ macSign secret j.claims then .error "JWTError: Signature verification failed"
    else if j.claims.exp < now then .error "JWTError: Signature has expired"
    else .ok j.claims

/-- The JWT-relevant part of `Settings` from `config.py`. -/
structure Settings where
  JWT_ACCESS_TOKEN_EXPIRE_MINUTES : Nat
  JWT_SECRET_KEY : String
  JWT_ALGORITHM : String
  JWT_REFRESH_TOKEN_EXPIRE_DAYS : Nat
deriving DecidableEq, Repr

/-- The payload `create_access_token` builds:
`{"sub": str(user_id), "exp": now + timedelta(minutes=…), "type": "access"}`. -/
def accessPayload (st : Settings) (user_id : Int) (now : Nat) : JwtClaims :=
  { sub := some (toString user_id)
    exp := now + st.JWT_ACCESS_TOKEN_EXPIRE_MINUTES * 60
    typ := "access" }

/-- `create_access_token` from `security.py`. -/
def create_access_token (st : Settings) (user_id : Int) (now : Nat) : Token :=
  joseEncode (accessPayload st user_id now) st.JWT_SECRET_KEY st.JWT_ALGORITHM

/-- The payload `create_refresh_token` builds:
`{"sub": str(user_id), "exp": now + timedelta(days=…), "type": "refresh"}`. -/
def refreshPayload (st : Settings) (user_id : Int) (now : Nat) : JwtClaims :=
  { sub := some (toString user_id)
    exp := now + st.JWT_REFRESH_TOKEN_EXPIRE_DAYS * 86400
    typ := "refresh" }

/-- `create_refresh_token` from `security.py`. -/
def create_refresh_token (st : Settings) (user_id : Int) (now : Nat) : Token :=
  joseEncode (refreshPayload st user_id now) st.JWT_SECRET_KEY st.JWT_ALGORITHM

/-- The one `HTTPException` `decode_token` ever raises. -/
def invalidTokenError : HTTPException :=
  ⟨401, "Invalid or expired token", [("WWW-Authenticate", "Bearer")]⟩

/-- `decode_token` from `security.py`: any `JWTError` from `jose` is caught
and replaced by the single fixed 401 `HTTPException`. -/
def decode_token (st : Settings) (token : Token) (now : Nat) : Except PyError JwtClaims :=
  match joseDecode token st.JWT_SECRET_KEY [st.JWT_ALGORITHM] now with
  | .ok payload => .ok payload
  | .error _ => .error (.http invalidTokenError)

/-! ## Python string helpers used by the service layer -/

/-- `str.lower()` (ASCII case folding, the part Lean's `Char.toLower` covers). -/
def pyLower (s : String) : String := String.mk (s.data.map Char.toLower)

/-- Remove leading and trailing whitespace from a character list. -/
def stripData (l : List Char) : List Char :=
  ((l.dropWhile Char.isWhitespace).reverse.dropWhile Char.isWhitespace).reverse

/-- `str.strip()`: remove leading and trailing whitespace. -/
def pyStrip (s : String) : String := String.mk (stripData s.data)

/-- The email normalisation the service applies: `email.lower().strip()`. -/
def normalizeEmail (email : String) : String := pyStrip (pyLower email)

/-- Digit characters folded to the number they spell. -/
def digitsToNat (ds : List Char) : Nat :=
  ds.foldl (fun a c => 10 * a + (c.toNat - 48)) 0

/-- Python's `int(s)` on a string: optional surrounding whitespace, optional
sign, then at least one decimal digit; anything else raises `ValueError`. -/
def pyIntOfString (s : String) : Option Int :=
  match (pyStrip s).data with
  | [] => none
  | c :: cs =>
    if c = '+' then
      if cs ≠ [] ∧ cs.all Char.isDigit then some (Int.ofNat (digitsToNat cs)) else none
    else if c = '-' then
      if cs ≠ [] ∧ cs.all Char.isDigit then some (-(Int.ofNat (digitsToNat cs))) else none
    else if (c :: cs).all Char.isDigit then some (Int.ofNat (digitsToNat (c :: cs)))
    else none

/-! ## The user table (`models.py`) and the user service (`user_service.py`)

The `users` table becomes a list of rows; `select ... where` becomes
`List.find?`.  Methods that mutate a loaded row return the updated row; the
session/commit machinery of `get_db` adds nothing the claims depend on. -/

/-- One row of the `users` table. -/
structure User where
  id : Int
  email : String
  hashed_password : String
  full_name : Option String
  is_active : Bool
  is_verified : Bool
deriving DecidableEq, Repr

/-- `UserService.get_by_id`: `select(User).where(User.id == user_id)`. -/
def UserService.get_by_id (db : List User) (user_id : Int) : Option User :=
  db.find? (fun u => u.id == user_id)

/-- `UserService.get_by_email`:
`select(User).where(User.email == email.lower().strip())`. -/
def UserService.get_by_email (db : List User) (email : String) : Option User :=
  db.find? (fun u => u.email == normalizeEmail email)

/-- The 409 raised on a duplicate registration. -/
def conflictError : HTTPException :=
  ⟨409, "An account with this email already exists", []⟩

/-- `UserService.create`: normalise the email, reject duplicates with 409,
hash the password, insert the new row (`new_id` stands for the id the
database assigns on flush).  `full_name.strip() if full_name else None`
follows Python truthiness: `None` and `""` both store `NULL`. -/
def UserService.create (db : List User) (new_id : Int) (email password : String)
    (full_name : Option String) : Except PyError (User × List User) :=
  let e := normalizeEmail email
  match UserService.get_by_email db e with
  | some _ => .error (.http conflictError)
  | none =>
    match hash_password password with
    | .error err => .error err
    | .ok hp =>
      let user : User :=
        { id := new_id
          email := e
          hashed_password := hp
          full_name := match full_name with
            | some s => if s = "" then none else some (pyStrip s)
            | none => none
          is_active := true
          is_verified := false }
      .ok (user, db ++ [user])

/-- The 401 raised on login when the email is unknown or the password wrong:
one and the same exception object in both cases. -/
def loginUnauthorized : HTTPException :=
  ⟨401, "Incorrect email or password", [("WWW-Authenticate", "Bearer")]⟩

/-- The 403 raised on login against a disabled account. -/
def loginDisabled : HTTPException :=
  ⟨403, "This account has been disabled. Contact support.", []⟩

/-- `UserService.authenticate`: look the user up by email; `not user or not
verify_password(...)` raises the single `loginUnauthorized` exception
(short-circuiting, so the password is not verified when the user is
missing); a disabled account raises 403; otherwise the user is returned. -/
def UserService.authenticate (db : List User) (email password : String) :
    Except PyError User :=
  match UserService.get_by_email db email with
  | none => .error (.http loginUnauthorized)
  | some user =>
    match verify_password password user.hashed_password with
    | .error e => .error e
    | .ok ok =>
      if ¬ ok then .error (.http loginUnauthorized)
      else if ¬ user.is_active then .error (.http loginDisabled)
      else .ok user

/-- `UserService.update_profile`: `user.full_name = full_name.strip()`. -/
def UserService.update_profile (user : User) (full_name : String) : User :=
  { user with full_name := some (pyStrip full_name) }

/-- The 400 raised when the offered current password does not verify. -/
def wrongCurrentPassword : HTTPException :=
  ⟨400, "Current password is incorrect", []⟩

/-- `UserService.change_password`: verify the current password (400 on
mismatch), then store the hash of the new one. -/
def UserService.change_password (user : User) (current_password new_password : String) :
    Except PyError User :=
  match verify_password current_password user.hashed_password with
  | .error e => .error e
  | .ok ok =>
    if ¬ ok then .error (.http wrongCurrentPassword)
    else
      match hash_password new_password with
      | .error e => .error e
      | .ok hp => .ok { user with hashed_password := hp }

/-! ## The authentication guard (`dependencies.py`) and routes (`auth.py`) -/

/-- The 401 `OAuth2PasswordBearer` raises when the header carries no token. -/
def notAuthenticated : HTTPException :=
  ⟨401, "Not authenticated", [("WWW-Authenticate", "Bearer")]⟩

/-- The 401 raised when the decoded payload has no usable `sub`. -/
def invalidTokenPayload : HTTPException :=
  ⟨401, "Invalid token payload", [("WWW-Authenticate", "Bearer")]⟩

/-- The 401 raised when the subject resolves to no user row. -/
def guardUserNotFound : HTTPException :=
  ⟨401, "User not found", [("WWW-Authenticate", "Bearer")]⟩

/-- The 403 raised for a disabled account. -/
def guardDisabled : HTTPException :=
  ⟨403, "Account is disabled", []⟩

/-- `get_current_user` from `dependencies.py`.  `token` is the bearer token
extracted by `OAuth2PasswordBearer` (`none` when the header is absent).
`payload.get("sub")` is `none` when the claim is missing, and `if not
user_id` treats the empty string as missing too; `int(user_id)` raises an
uncaught `ValueError` on a non-numeric subject. -/
def get_current_user (st : Settings) (db : List User) (token : Option Token) (now : Nat) :
    Except PyError User :=
  match token with
  | none => .error (.http notAuthenticated)
  | some tok =>
    match decode_token st tok now with
    | .error e => .error e
    | .ok payload =>
      match payload.sub with
      | none => .error (.http invalidTokenPayload)
      | some s =>
        if s = "" then .error (.http invalidTokenPayload)
        else
          match pyIntOfString s with
          | none => .error (.uncaught ("ValueError: invalid literal for int() with base 10: " ++ s))
          | some uid =>
            match UserService.get_by_id db uid with
            | none => .error (.http guardUserNotFound)
            | some user =>
              if ¬ user.is_active then .error (.http guardDisabled)
              else .ok user

/-- The 401 the refresh route raises when the subject no longer exists
(constructed inline in the route, without the bearer header). -/
def refreshUserNotFound : HTTPException := ⟨401, "User not found", []⟩

/-- `refresh_token` from `routes/auth.py`: decode the offered refresh token,
resolve `int(token_data["sub"])` (a missing claim raises `KeyError`, a
non-numeric one `ValueError`, both uncaught), 401 when the user row is gone,
otherwise mint a fresh access/refresh pair.  No purpose-tag check anywhere. -/
def AuthRoutes.refresh_token (st : Settings) (db : List User) (tok : Token) (now : Nat) :
    Except PyError (Token × Token × User) :=
  match decode_token st tok now with
  | .error e => .error e
  | .ok token_data =>
    match token_data.sub with
    | none => .error (.uncaught "KeyError: sub")
    | some s =>
      match pyIntOfString s with
      | none => .error (.uncaught ("ValueError: invalid literal for int() with base 10: " ++ s))
      | some uid =>
        match UserService.get_by_id db uid with
        | none => .error (.http refreshUserNotFound)
        | some user =>
          .ok (create_access_token st user.id now, create_refresh_token st user.id now, user)

/-- `update_profile` from `routes/auth.py` (the `PUT /auth/me` handler): it
assigns `current_user.full_name = full_name` directly, bypassing
`UserService.update_profile` and its trimming. -/
def AuthRoutes.update_profile (current_user : User) (full_name : String) : User :=
  { current_user with full_name := some full_name }

/-! ## Proof-side auxiliary definitions and concrete fixtures -/

/-- Specification of the decimal digit list of a natural number, used to
reason about `Nat.toDigits`. -/
def natDigits (n : Nat) : List Char :=
  if _h : n < 10 then [Nat.digitChar n]
  else natDigits (n / 10) ++ [Nat.digitChar (n % 10)]
termination_by n
decreasing_by
  exact Nat.div_lt_self (by omega) (by omega)

/-- A concrete configuration for witness instances. -/
def stTest : Settings :=
  { JWT_ACCESS_TOKEN_EXPIRE_MINUTES := 30
    JWT_SECRET_KEY := "test-secret"
    JWT_ALGORITHM := "HS256"
    JWT_REFRESH_TOKEN_EXPIRE_DAYS := 7 }

/-- A concrete registered user whose stored credential is the hash of
`Secret123`. -/
def alice : User :=
  { id := 1
    email := "alice@x.com"
    hashed_password := mkBcryptHash (_prehash "Secret123")
    full_name := some "Alice"
    is_active := true
    is_verified := false }

/-- A one-row user table holding `alice`. -/
def db1 : List User := [alice]

/-! ## Shape of the SHA-256 hex digest -/

/-- Eight hex characters per word. -/
theorem toHex8_length (x : Nat) : (toHex8 x).length = 8 := by
  simp [toHex8]

/-- The prehash is always exactly 64 characters long. -/
theorem _prehash_length (p : String) : (_prehash p).length = 64 := by
  simp [_prehash, sha256hexBytes, toHex8_length]

/-- Every character of a hex digest is ASCII. -/
theorem mem_toHex8_toNat_lt (c : Char) (x : Nat) (h : c ∈ toHex8 x) : c.toNat < 128 := by
  simp only [toHex8, List.mem_map, List.mem_range] at h
  obtain ⟨i, -, rfl⟩ := h
  have h16 : (x >>> (28 - 4 * i)) % 16 < 16 := Nat.mod_lt _ (by norm_num)
  set n := (x >>> (28 - 4 * i)) % 16 with hn
  interval_cases n <;> decide

/-- ASCII characters UTF-8-encode to single bytes, so an ASCII string has as
many UTF-8 bytes as characters. -/
theorem utf8Bytes_length_of_ascii (cs : List Char) (h : ∀ c ∈ cs, c.toNat < 128) :
    ((cs.map utf8EncodeChar).flatten).length = cs.length := by
  induction cs with
  | nil => rfl
  | cons c cs ih =>
    have hc : c.toNat < 128 := h c (List.mem_cons_self c cs)
    have henc : utf8EncodeChar c = [c.toNat] := by
      simp [utf8EncodeChar, hc]
    simp only [List.map_cons, List.flatten_cons, List.length_append, henc]
    rw [ih (fun x hx => h x (List.mem_cons_of_mem c hx))]
    simp only [List.length_singleton, List.length_cons, List.length_nil]
    omega

/-- The UTF-8 byte count of the prehash is 64, comfortably inside bcrypt's
72-byte limit. -/
theorem utf8Bytes_prehash_length (p : String) : (utf8Bytes (_prehash p)).length = 64 := by
  have hmem : ∀ c ∈ (_prehash p).data, c.toNat < 128 := by
    intro c hc
    simp only [_prehash, sha256hexBytes, List.mem_append] at hc
    rcases hc with ((((((h | h) | h) | h) | h) | h) | h) | h <;>
      exact mem_toHex8_toNat_lt c _ h
  have : (_prehash p).data.length = 64 := _prehash_length p
  calc (utf8Bytes (_prehash p)).length
      = (_prehash p).data.length := utf8Bytes_length_of_ascii _ hmem
    _ = 64 := this

/-! ## The bcrypt layer -/

/-- A string equals the string of its characters. -/
theorem string_mk_data (s : String) : String.mk s.data = s := by
  cases s
  rfl

/-- Parsing a produced bcrypt hash recovers the key it was produced from. -/
theorem parseBcryptHash_mk (key : String) : parseBcryptHash (mkBcryptHash key) = some key := by
  simp [parseBcryptHash, mkBcryptHash, string_mk_data]

/-- `hash_password` never hits the 72-byte bcrypt limit: the prehash is 64
bytes, so every password hashes successfully, to the bcrypt hash of its
prehash. -/
theorem hash_password_eq (p : String) :
    hash_password p = .ok (mkBcryptHash (_prehash p)) := by
  have h := utf8Bytes_prehash_length p
  simp [hash_password, bcryptHashKey, h]

/-- Verifying any plaintext against a produced bcrypt hash compares the two
prehashes. -/
theorem verify_password_mk (q p : String) :
    verify_password q (mkBcryptHash (_prehash p)) = .ok (_prehash p == _prehash q) := by
  have h := utf8Bytes_prehash_length q
  simp [verify_password, bcryptVerifyKey, parseBcryptHash_mk, h]

/-- C1.  For every plaintext password `p` — the statement quantifies over all
strings, in particular those far beyond bcrypt's 72-byte input limit such as
500-character passwords — `hash_password` succeeds and `verify_password p`
accepts the produced hash, because both paths apply the identical SHA-256
pre-compression (`_prehash`) before invoking the bcrypt primitive, whose
input is therefore always 64 bytes. -/
theorem c1_verify_roundtrip (p : String) :
    ∃ h, hash_password p = .ok h ∧ verify_password p h = .ok true := by
  refine ⟨mkBcryptHash (_prehash p), hash_password_eq p, ?_⟩
  rw [verify_password_mk p p]
  simp

/-! ## The token codec -/

/-- Decoding a token signed with the configured secret and algorithm succeeds
before expiry and returns its claim set. -/
theorem decode_token_ok (st : Settings) (claims : JwtClaims) (t : Nat)
    (h : ¬ claims.exp < t) :
    decode_token st (joseEncode claims st.JWT_SECRET_KEY st.JWT_ALGORITHM) t = .ok claims := by
  simp [decode_token, joseEncode, joseDecode, macSign, h]

/-- C5.  `decode_token` either succeeds or fails with one and the same
condition: the single fixed 401 `HTTPException` ("Invalid or expired token"),
whatever the reason; in particular an unparseable token, a token whose
algorithm is not the configured one, a token whose signature does not match,
and an expired token all produce exactly that error, so the caller cannot
tell which check failed. -/
theorem c5_uniform_decode_failure (st : Settings) (token : Token) (now : Nat) (raw : String) :
    (decode_token st token now = .error (.http invalidTokenError) ∨
      ∃ claims, decode_token st token now = .ok claims)
    ∧ decode_token st (.malformed raw) now = .error (.http invalidTokenError)
    ∧ (∀ j : Jwt, j.alg ≠ st.JWT_ALGORITHM →
        decode_token st (.signed j) now = .error (.http invalidTokenError))
    ∧ (∀ j : Jwt, j.sig ≠ macSign st.JWT_SECRET_KEY j.claims →
        decode_token st (.signed j) now = .error (.http invalidTokenError))
    ∧ (∀ j : Jwt, j.claims.exp < now →
        decode_token st (.signed j) now = .error (.http invalidTokenError)) := by
  refine ⟨?_, ?_, ?_, ?_, ?_⟩
  · cases h : joseDecode token st.JWT_SECRET_KEY [st.JWT_ALGORITHM] now with
    | error e => exact .inl (by simp [decode_token, h])
    | ok c => exact .inr ⟨c, by simp [decode_token, h]⟩
  · simp [decode_token, joseDecode]
  · intro j halg
    simp [decode_token, joseDecode, halg]
  · intro j hsig
    by_cases halg : j.alg = st.JWT_ALGORITHM
    · simp [decode_token, joseDecode, halg, hsig]
    · simp [decode_token, joseDecode, halg]
  · intro j hexp
    by_cases halg : j.alg = st.JWT_ALGORITHM
    · by_cases hsig : j.sig = macSign st.JWT_SECRET_KEY j.claims
      · simp [decode_token, joseDecode, halg, hsig, hexp]
      · simp [decode_token, joseDecode, halg, hsig]
    · simp [decode_token, joseDecode, halg]

/-- Witness for C5 at concrete inputs: a malformed token, a token with a
foreign algorithm, a tampered signature, and an expired token each yield the
one fixed 401. -/
theorem c5_uniform_decode_failure_witness :
    decode_token stTest (.malformed "garbage") 0 = .error (.http invalidTokenError)
    ∧ decode_token stTest (.signed ⟨"none", ⟨some "1", 100, "access"⟩,
        macSign "test-secret" ⟨some "1", 100, "access"⟩⟩) 0
      = .error (.http invalidTokenError)
    ∧ decode_token stTest (.signed ⟨"HS256", ⟨some "1", 100, "access"⟩,
        macSign "other-secret" ⟨some "1", 100, "access"⟩⟩) 0
      = .error (.http invalidTokenError)
    ∧ decode_token stTest (.signed ⟨"HS256", ⟨some "1", 100, "access"⟩,
        macSign "test-secret" ⟨some "1", 100, "access"⟩⟩) 101
      = .error (.http invalidTokenError) := by
  refine ⟨(c5_uniform_decode_failure stTest (.malformed "garbage") 0 "garbage").2.1,
    (c5_uniform_decode_failure stTest (.malformed "x") 0 "x").2.2.1 _ (by decide),
    (c5_uniform_decode_failure stTest (.malformed "x") 0 "x").2.2.2.1 _ (by decide),
    (c5_uniform_decode_failure stTest (.malformed "x") 101 "x").2.2.2.2 _ (by decide)⟩

/-- C4.  Tokens issued by `create_access_token` and `create_refresh_token`
carry the string-encoded subject, the purpose tag (`access` / `refresh`) and
an expiry of issue time plus the configured duration (minutes for access,
days for refresh); the exact issued token decodes successfully to that
payload before expiry and fails after expiry; altering any component of the
token — its claim set or its signature (the structural counterpart of
altering a character of the serialized token) — makes decode fail, as does
decoding under a different signing secret. -/
theorem c4_token_codec (st : Settings) (uid : Int) (now t : Nat) :
    ((accessPayload st uid now).sub = some (toString uid)
      ∧ (accessPayload st uid now).typ = "access"
      ∧ (accessPayload st uid now).exp = now + st.JWT_ACCESS_TOKEN_EXPIRE_MINUTES * 60)
    ∧ ((refreshPayload st uid now).sub = some (toString uid)
      ∧ (refreshPayload st uid now).typ = "refresh"
      ∧ (refreshPayload st uid now).exp = now + st.JWT_REFRESH_TOKEN_EXPIRE_DAYS * 86400)
    ∧ (t < (accessPayload st uid now).exp →
        decode_token st (create_access_token st uid now) t = .ok (accessPayload st uid now))
    ∧ ((accessPayload st uid now).exp < t →
        decode_token st (create_access_token st uid now) t = .error (.http invalidTokenError))
    ∧ (t < (refreshPayload st uid now).exp →
        decode_token st (create_refresh_token st uid now) t = .ok (refreshPayload st uid now))
    ∧ ((refreshPayload st uid now).exp < t →
        decode_token st (create_refresh_token st uid now) t = .error (.http invalidTokenError))
    ∧ (∀ claims2, claims2 ≠ accessPayload st uid now →
        decode_token st (.signed ⟨st.JWT_ALGORITHM, claims2,
          macSign st.JWT_SECRET_KEY (accessPayload st uid now)⟩) t
          = .error (.http invalidTokenError))
    ∧ (∀ sig2, sig2 ≠ macSign st.JWT_SECRET_KEY (accessPayload st uid now) →
        decode_token st (.signed ⟨st.JWT_ALGORITHM, accessPayload st uid now, sig2⟩) t
          = .error (.http invalidTokenError))
    ∧ (∀ st2 : Settings, st2.JWT_ALGORITHM = st.JWT_ALGORITHM →
        st2.JWT_SECRET_KEY ≠ st.JWT_SECRET_KEY →
        decode_token st2 (create_access_token st uid now) t
          = .error (.http invalidTokenError)) := by
  refine ⟨⟨rfl, rfl, rfl⟩, ⟨rfl, rfl, rfl⟩, ?_, ?_, ?_, ?_, ?_, ?_, ?_⟩
  · intro h
    exact decode_token_ok st _ t (by omega)
  · intro h
    simp [decode_token, joseDecode, create_access_token, joseEncode, macSign, h]
  · intro h
    exact decode_token_ok st _ t (by omega)
  · intro h
    simp [decode_token, joseDecode, create_refresh_token, joseEncode, macSign, h]
  · intro claims2 hne
    have : macSign st.JWT_SECRET_KEY (accessPayload st uid now)
        ≠ macSign st.JWT_SECRET_KEY claims2 := by
      simp [macSign]
      exact fun hh => hne hh.symm
    simp [decode_token, joseDecode, this]
  · intro sig2 hne
    simp [decode_token, joseDecode, hne]
  · intro st2 halg hsec
    have : macSign st.JWT_SECRET_KEY (accessPayload st uid now)
        ≠ macSign st2.JWT_SECRET_KEY (accessPayload st uid now) := by
      simp [macSign]
      exact fun hh => hsec hh.symm
    simp [decode_token, joseDecode, create_access_token, joseEncode, halg, this]

/-- Witness for C4 at a concrete configuration: the access token of user 7
issued at time 0 decodes at time 5 to its payload, fails at time 2000
(past the 1800-second expiry), fails when the subject claim is altered under
the old signature, and fails under a different secret. -/
theorem c4_token_codec_witness :
    decode_token stTest (create_access_token stTest 7 0) 5 = .ok (accessPayload stTest 7 0)
    ∧ decode_token stTest (create_access_token stTest 7 0) 2000
      = .error (.http invalidTokenError)
    ∧ decode_token stTest (.signed ⟨"HS256", ⟨some "8", 1800, "access"⟩,
        macSign "test-secret" (accessPayload stTest 7 0)⟩) 5
      = .error (.http invalidTokenError)
    ∧ decode_token { stTest with JWT_SECRET_KEY := "other" }
        (create_access_token stTest 7 0) 5 = .error (.http invalidTokenError) := by
  refine ⟨(c4_token_codec stTest 7 0 5).2.2.1 (by decide),
    (c4_token_codec stTest 7 0 2000).2.2.2.1 (by decide), ?_, ?_⟩
  · have := (c4_token_codec stTest 7 0 5).2.2.2.2.2.2.1 ⟨some "8", 1800, "access"⟩ (by decide)
    simpa [stTest] using this
  · exact (c4_token_codec stTest 7 0 5).2.2.2.2.2.2.2.2
      { stTest with JWT_SECRET_KEY := "other" } rfl (by decide)

/-! ## The password-hash error path (C6) -/

/-- C6 counterexample: on a malformed stored hash the code does not return
`false` — it raises (passlib cannot identify the hash scheme), so
`verify_password` is not total on malformed hashes. -/
theorem c6_counterexample :
    verify_password "password123" "nothash"
      = .error (.uncaught "UnknownHashError: hash could not be identified")
    ∧ verify_password "password123" "nothash" ≠ .ok false := by
  constructor
  · rfl
  · intro h
    simpa using h.symm.trans
      (show verify_password "password123" "nothash"
        = .error (.uncaught "UnknownHashError: hash could not be identified") from rfl)

/-- C6 amended.  On a malformed stored hash (one the bcrypt scheme cannot
identify) `verify_password` raises the `UnknownHashError` instead of
returning `false`; on a well-formed stored hash it never throws and returns
a boolean (the comparison of the recorded key with the offered prehash). -/
theorem c6_amended_error_path (plain hashed : String) :
    (parseBcryptHash hashed = none →
      verify_password plain hashed
        = .error (.uncaught "UnknownHashError: hash could not be identified"))
    ∧ (∀ key, parseBcryptHash hashed = some key →
        verify_password plain hashed = .ok (key == _prehash plain)) := by
  constructor
  · intro h
    simp [verify_password, bcryptVerifyKey, h]
  · intro key h
    have hl := utf8Bytes_prehash_length plain
    simp [verify_password, bcryptVerifyKey, h, hl]

/-- Witness for the amended C6: a malformed stored hash raises, a well-formed
one returns a boolean. -/
theorem c6_amended_error_path_witness :
    verify_password "pw" "nothash"
      = .error (.uncaught "UnknownHashError: hash could not be identified")
    ∧ verify_password "pw" (mkBcryptHash "k") = .ok ("k" == _prehash "pw") :=
  ⟨(c6_amended_error_path "pw" "nothash").1 rfl,
   (c6_amended_error_path "pw" (mkBcryptHash "k")).2 "k" (by decide)⟩

/-! ## Email normalisation is idempotent -/

/-- `Char.ofNat` of a valid codepoint has that codepoint. -/
theorem toNat_ofNat_valid (n : Nat) (h : n.isValidChar) : (Char.ofNat n).toNat = n := by
  rw [Char.ofNat, dif_pos h]
  rfl

/-- ASCII lowercasing is idempotent. -/
theorem toLower_toLower (c : Char) : c.toLower.toLower = c.toLower := by
  unfold Char.toLower
  by_cases h : c.toNat ≥ 65 ∧ c.toNat ≤ 90
  · rw [if_pos h]
    have hv : (c.toNat + 32).isValidChar := Or.inl (by omega)
    have ht : (Char.ofNat (c.toNat + 32)).toNat = c.toNat + 32 := toNat_ofNat_valid _ hv
    rw [if_neg (by rw [ht]; omega)]
  · rw [if_neg h, if_neg h]

/-- Every character of a lowercased list is fixed by lowercasing. -/
theorem mem_map_toLower_fixed {x : Char} {l : List Char}
    (hx : x ∈ l.map Char.toLower) : x.toLower = x := by
  simp only [List.mem_map] at hx
  obtain ⟨y, -, rfl⟩ := hx
  exact toLower_toLower y

/-- A map that fixes every element of a list is the identity on it. -/
theorem map_eq_self_of_fixed {α : Type} {f : α → α} {l : List α}
    (h : ∀ x ∈ l, f x = x) : l.map f = l := by
  induction l with
  | nil => rfl
  | cons a t ih =>
    rw [List.map_cons, h a (List.mem_cons_self a t),
      ih (fun x hx => h x (List.mem_cons_of_mem a hx))]

/-- Dropping from the front of a list whose front survives `dropWhile`
changes nothing, even after trimming its tail. -/
theorem dropWhile_rev_dropWhile {α : Type} (p : α → Bool) (m : List α)
    (hm : m.dropWhile p = m) :
    ((m.reverse.dropWhile p).reverse).dropWhile p = (m.reverse.dropWhile p).reverse := by
  have hsplit : m.reverse.takeWhile p ++ m.reverse.dropWhile p = m.reverse :=
    List.takeWhile_append_dropWhile p _
  have hm2 : (m.reverse.dropWhile p).reverse ++ (m.reverse.takeWhile p).reverse = m := by
    have h2 := congrArg List.reverse hsplit
    rw [List.reverse_append, List.reverse_reverse] at h2
    exact h2
  cases hrr : (m.reverse.dropWhile p).reverse with
  | nil => simp
  | cons a t =>
    rw [hrr] at hm2
    have hma : m.head? = some a := by
      rw [← hm2]
      rfl
    have hh := List.head?_dropWhile_not p m
    rw [hm, hma] at hh
    have hpa : p a = false := by simpa using hh
    rw [List.dropWhile_cons]
    simp [hpa]

/-- Stripping an already-stripped list changes nothing. -/
theorem stripData_idem (l : List Char) : stripData (stripData l) = stripData l := by
  have hd : (l.dropWhile Char.isWhitespace).dropWhile Char.isWhitespace
      = l.dropWhile Char.isWhitespace := List.dropWhile_idempotent _ _
  unfold stripData
  rw [dropWhile_rev_dropWhile Char.isWhitespace (l.dropWhile Char.isWhitespace) hd,
    List.reverse_reverse, List.dropWhile_idempotent]

/-- Elements of a stripped list come from the original list. -/
theorem mem_stripData {x : Char} {l : List Char} (h : x ∈ stripData l) : x ∈ l := by
  unfold stripData at h
  rw [List.mem_reverse] at h
  have h1 : x ∈ (l.dropWhile Char.isWhitespace).reverse := List.dropWhile_subset _ h
  rw [List.mem_reverse] at h1
  exact List.dropWhile_subset _ h1

/-- The service's email normalisation (`email.lower().strip()`) is
idempotent, so normalising an already-normalised email changes nothing. -/
theorem normalizeEmail_idem (e : String) :
    normalizeEmail (normalizeEmail e) = normalizeEmail e := by
  have hfix : (stripData (e.data.map Char.toLower)).map Char.toLower
      = stripData (e.data.map Char.toLower) :=
    map_eq_self_of_fixed (fun x hx => mem_map_toLower_fixed (mem_stripData hx))
  show String.mk (stripData (List.map Char.toLower (stripData (List.map Char.toLower e.data))))
      = String.mk (stripData (List.map Char.toLower e.data))
  rw [hfix, stripData_idem]

/-- Looking an email up by its normalised form is the same lookup the service
performs on the raw form. -/
theorem get_by_email_normalize (db : List User) (email : String) :
    UserService.get_by_email db (normalizeEmail email) = UserService.get_by_email db email := by
  unfold UserService.get_by_email
  rw [normalizeEmail_idem]

/-! ## Login (C2) -/

/-- C2.  The login flow is enumeration-resistant: for an email with no
account, and equally for an email whose account exists but whose offered
password fails verification, `authenticate` raises literally the same
`HTTPException` — status 401, detail "Incorrect email or password", and the
same headers — so the two failure runs are indistinguishable to the caller. -/
theorem c2_login_enumeration_resistance (db : List User) (email password : String) :
    (UserService.get_by_email db email = none →
      UserService.authenticate db email password = .error (.http loginUnauthorized))
    ∧ (∀ u, UserService.get_by_email db email = some u →
        verify_password password u.hashed_password = .ok false →
        UserService.authenticate db email password = .error (.http loginUnauthorized)) := by
  constructor
  · intro h
    simp [UserService.authenticate, h]
  · intro u hu hv
    simp [UserService.authenticate, hu, hv]

/-- Witness for C2: against a one-user table, login with an unknown email and
login with the right email but wrong password produce the identical 401. -/
theorem c2_login_enumeration_resistance_witness :
    UserService.authenticate db1 "ghost@x.com" "Secret123" = .error (.http loginUnauthorized)
    ∧ UserService.authenticate db1 "alice@x.com" "WrongPass1" = .error (.http loginUnauthorized) :=
  ⟨(c2_login_enumeration_resistance db1 "ghost@x.com" "Secret123").1 (by decide),
   (c2_login_enumeration_resistance db1 "alice@x.com" "WrongPass1").2 alice (by decide) (by decide)⟩

/-! ## Register (C7) -/

/-- The exact row a successful `create` inserts. -/
theorem create_ok_shape (db : List User) (new_id : Int) (email password : String)
    (fn : Option String) (u : User) (db2 : List User)
    (h : UserService.create db new_id email password fn = .ok (u, db2)) :
    u.id = new_id
    ∧ u.email = normalizeEmail email
    ∧ u.hashed_password = mkBcryptHash (_prehash password)
    ∧ u.is_active = true
    ∧ u.is_verified = false
    ∧ db2 = db ++ [u] := by
  cases hq : UserService.get_by_email db (normalizeEmail email) with
  | some u0 =>
    simp only [UserService.create, hq] at h
    simp at h
  | none =>
    simp only [UserService.create, hq, hash_password_eq] at h
    simp only [Except.ok.injEq, Prod.mk.injEq] at h
    obtain ⟨hu, hdb⟩ := h
    subst hdb
    rw [← hu]
    exact ⟨rfl, rfl, rfl, rfl, rfl, rfl⟩

/-- C7.  Register normalises the email (lowercase then strip) before lookup
and insert; a successful registration stores `active=true`,
`verified=false` and the bcrypt hash of the password (never the plaintext);
if an account already exists under the normalised email the call raises 409
and returns no new table; and after a successful registration any second
registration whose email differs only by case (same normalised form) raises
409. -/
theorem c7_register (db : List User) (new_id : Int) (email password : String)
    (fn : Option String) :
    (∀ u db2, UserService.create db new_id email password fn = .ok (u, db2) →
      u.email = normalizeEmail email
      ∧ u.is_active = true
      ∧ u.is_verified = false
      ∧ u.hashed_password = mkBcryptHash (_prehash password)
      ∧ db2 = db ++ [u])
    ∧ (∀ u0, UserService.get_by_email db email = some u0 →
        UserService.create db new_id email password fn = .error (.http conflictError))
    ∧ (∀ email2, normalizeEmail email2 = normalizeEmail email →
        ∀ u db2, UserService.create db new_id email password fn = .ok (u, db2) →
        ∀ (new_id2 : Int) (password2 : String) (fn2 : Option String),
          UserService.create db2 new_id2 email2 password2 fn2
            = .error (.http conflictError)) := by
  refine ⟨?_, ?_, ?_⟩
  · intro u db2 h
    obtain ⟨-, he, hh, ha, hv, hdb⟩ := create_ok_shape db new_id email password fn u db2 h
    exact ⟨he, ha, hv, hh, hdb⟩
  · intro u0 h0
    have hq : UserService.get_by_email db (normalizeEmail email) = some u0 := by
      rw [get_by_email_normalize]
      exact h0
    simp only [UserService.create, hq]
  · intro email2 hnorm u db2 h new_id2 password2 fn2
    obtain ⟨-, he, -, -, -, hdb⟩ := create_ok_shape db new_id email password fn u db2 h
    have hpu : (fun v : User => v.email == normalizeEmail (normalizeEmail email2)) u = true := by
      rw [normalizeEmail_idem, hnorm, ← he]
      simp
    have hque : ∃ x, UserService.get_by_email db2 (normalizeEmail email2) = some x := by
      unfold UserService.get_by_email
      rw [hdb, List.find?_append]
      cases hfd : db.find? (fun v : User => v.email == normalizeEmail (normalizeEmail email2)) with
      | some x => exact ⟨x, by simp [hfd]⟩
      | none => exact ⟨u, by simp [hfd, hpu]⟩
    obtain ⟨x, hx⟩ := hque
    simp only [UserService.create, hx]

/-- Witness for C7: registering `ALICE@x.com` against a table already holding
`alice@x.com` raises the 409, and after registering `A@x.com` into an empty
table, registering `a@x.com` raises the 409. -/
theorem c7_register_witness :
    UserService.create db1 2 "ALICE@x.com" "Another1" none = .error (.http conflictError)
    ∧ UserService.create
        [{ id := 1
           email := "a@x.com"
           hashed_password := mkBcryptHash (_prehash "Secret123")
           full_name := none
           is_active := true
           is_verified := false }] 2 "a@x.com" "Other1" none
      = .error (.http conflictError) :=
  ⟨(c7_register db1 2 "ALICE@x.com" "Another1" none).2.1 alice (by decide),
   (c7_register [] 1 "A@x.com" "Secret123" none).2.2 "a@x.com" (by decide)
     { id := 1
       email := "a@x.com"
       hashed_password := mkBcryptHash (_prehash "Secret123")
       full_name := none
       is_active := true
       is_verified := false }
     [{ id := 1
        email := "a@x.com"
        hashed_password := mkBcryptHash (_prehash "Secret123")
        full_name := none
        is_active := true
        is_verified := false }] (by decide) 2 "Other1" none⟩

/-! ## Change password (C8) -/

/-- C8.  `change_password` verifies the offered current password against the
stored hash and raises 400 on mismatch; on success the stored credential
becomes the hash of the new password, after which login with the new
password succeeds and login with the old password fails.  The old-password
conjuncts carry the hypothesis that the two passwords' SHA-256 prehashes
differ: for distinct passwords this can only fail on a SHA-256 collision,
which no theorem can exclude for a fixed-output digest (the spec itself
asserts cross-password rejection only "with overwhelming probability"). -/
theorem c8_change_password (user : User) (current_password new_password : String) :
    (verify_password current_password user.hashed_password = .ok false →
      UserService.change_password user current_password new_password
        = .error (.http wrongCurrentPassword))
    ∧ (∀ u2, UserService.change_password user current_password new_password = .ok u2 →
        u2.hashed_password = mkBcryptHash (_prehash new_password)
        ∧ verify_password new_password u2.hashed_password = .ok true
        ∧ (_prehash current_password ≠ _prehash new_password →
            verify_password current_password u2.hashed_password = .ok false)
        ∧ (∀ db email, UserService.get_by_email db email = some u2 →
            u2.is_active = true →
            UserService.authenticate db email new_password = .ok u2
            ∧ (_prehash current_password ≠ _prehash new_password →
                UserService.authenticate db email current_password
                  = .error (.http loginUnauthorized)))) := by
  constructor
  · intro h
    simp [UserService.change_password, h]
  · intro u2 h
    have hshape : u2 = { user with hashed_password := mkBcryptHash (_prehash new_password) } := by
      cases hv : verify_password current_password user.hashed_password with
      | error e =>
        simp [UserService.change_password, hv] at h
      | ok b =>
        cases b with
        | false => simp [UserService.change_password, hv] at h
        | true =>
          simp only [UserService.change_password, hv, hash_password_eq] at h
          simpa using h.symm
    have hhash : u2.hashed_password = mkBcryptHash (_prehash new_password) := by
      rw [hshape]
    have hvnew : verify_password new_password u2.hashed_password = .ok true := by
      rw [hhash, verify_password_mk]
      simp
    have hvold : _prehash current_password ≠ _prehash new_password →
        verify_password current_password u2.hashed_password = .ok false := by
      intro hne
      rw [hhash, verify_password_mk]
      simp only [Except.ok.injEq]
      exact beq_eq_false_iff_ne.mpr (fun hh => hne hh.symm)
    refine ⟨hhash, hvnew, hvold, ?_⟩
    intro db email hdb hact
    constructor
    · simp [UserService.authenticate, hdb, hvnew, hact]
    · intro hne
      simp [UserService.authenticate, hdb, hvold hne]

/-- Witness for C8: with the stored hash of `Secret123`, a wrong current
password earns the 400; changing `Secret123` to `NewSecret9` stores the new
hash, after which login with `NewSecret9` succeeds and login with
`Secret123` fails. -/
theorem c8_change_password_witness :
    UserService.change_password alice "Wrong1" "NewSecret9"
      = .error (.http wrongCurrentPassword)
    ∧ UserService.authenticate
        [{ alice with hashed_password := mkBcryptHash (_prehash "NewSecret9") }]
        "alice@x.com" "NewSecret9"
      = .ok { alice with hashed_password := mkBcryptHash (_prehash "NewSecret9") }
    ∧ UserService.authenticate
        [{ alice with hashed_password := mkBcryptHash (_prehash "NewSecret9") }]
        "alice@x.com" "Secret123"
      = .error (.http loginUnauthorized) := by
  have happ := (c8_change_password alice "Secret123" "NewSecret9").2
    { alice with hashed_password := mkBcryptHash (_prehash "NewSecret9") } (by decide)
  have hlogin := happ.2.2.2
    [{ alice with hashed_password := mkBcryptHash (_prehash "NewSecret9") }]
    "alice@x.com" (by decide) (by decide)
  exact ⟨(c8_change_password alice "Wrong1" "NewSecret9").1 (by decide),
    hlogin.1, hlogin.2 (by decide)⟩

/-! ## Update profile (C9) -/

/-- C9.  The `PUT /auth/me` handler does not trim: it assigns the raw string
to the profile (bypassing `UserService.update_profile`, which does trim), so
a display name sent with surrounding whitespace is stored with that
whitespace, contrary to the specified trim-and-store behaviour. -/
theorem c9_route_update_profile_no_trim :
    (AuthRoutes.update_profile alice "  Alice Smith  ").full_name = some "  Alice Smith  "
    ∧ some "  Alice Smith  " ≠ some (pyStrip "  Alice Smith  ")
    ∧ (UserService.update_profile alice "  Alice Smith  ").full_name
      = some (pyStrip "  Alice Smith  ") :=
  ⟨rfl, by decide, rfl⟩

/-! ## The authentication guard (C3) -/

/-- C3.  A validly signed, unexpired token whose subject claim is not
numeric (here `"abc"`) does not produce a 401 from the guard: the
`int(user_id)` call raises an uncaught `ValueError`, which surfaces as an
internal error, never as an `HTTPException` of any status. -/
theorem c3_malformed_subject_uncaught :
    get_current_user stTest db1
      (some (joseEncode ⟨some "abc", 100, "access"⟩ "test-secret" "HS256")) 0
      = .error (.uncaught "ValueError: invalid literal for int() with base 10: abc")
    ∧ ∀ e : HTTPException,
        get_current_user stTest db1
          (some (joseEncode ⟨some "abc", 100, "access"⟩ "test-secret" "HS256")) 0
          ≠ .error (.http e) := by
  have h1 : get_current_user stTest db1
      (some (joseEncode ⟨some "abc", 100, "access"⟩ "test-secret" "HS256")) 0
      = .error (.uncaught "ValueError: invalid literal for int() with base 10: abc") := by
    decide
  refine ⟨h1, fun e h => ?_⟩
  rw [h1] at h
  simp at h

/-! ## Decimal digits: `str(user_id)` parses back with `int(...)` -/

/-- The characters `Nat.digitChar` produces for digits below ten are decimal
digit characters: not whitespace, not a sign, and worth their digit. -/
theorem digitChar_facts (k : Nat) (h : k < 10) :
    (Nat.digitChar k).isWhitespace = false
    ∧ Nat.digitChar k ≠ '+'
    ∧ Nat.digitChar k ≠ '-'
    ∧ (Nat.digitChar k).isDigit = true
    ∧ (Nat.digitChar k).toNat - 48 = k := by
  interval_cases k <;> exact ⟨by decide, by decide, by decide, by decide, by decide⟩

/-- `Nat.toDigitsCore` with enough fuel computes `natDigits`. -/
theorem toDigitsCore_eq_natDigits :
    ∀ (fuel n : Nat) (acc : List Char), n < fuel →
      Nat.toDigitsCore 10 fuel n acc = natDigits n ++ acc := by
  intro fuel
  induction fuel with
  | zero => intro n acc h; omega
  | succ f ih =>
    intro n acc h
    simp only [Nat.toDigitsCore]
    by_cases h10 : n / 10 = 0
    · have hn10 : n < 10 := by omega
      rw [if_pos h10]
      unfold natDigits
      rw [dif_pos hn10]
      have : n % 10 = n := by omega
      rw [this]
      rfl
    · have hlt : n / 10 < f := by omega
      rw [if_neg h10]
      rw [ih (n / 10) (Nat.digitChar (n % 10) :: acc) hlt]
      conv_rhs => rw [natDigits]
      rw [dif_neg (by omega : ¬ n < 10)]
      simp [List.append_assoc]

/-- The digit list of a number is never empty. -/
theorem natDigits_ne_nil (n : Nat) : natDigits n ≠ [] := by
  unfold natDigits
  by_cases h : n < 10
  · rw [dif_pos h]
    simp
  · rw [dif_neg h]
    simp

/-- Every character of a digit list is a `digitChar` of a digit. -/
theorem mem_natDigits (n : Nat) : ∀ c ∈ natDigits n, ∃ k, k < 10 ∧ c = Nat.digitChar k := by
  induction n using Nat.strong_induction_on with
  | _ n ih =>
    intro c hc
    by_cases hn : n < 10
    · unfold natDigits at hc
      rw [dif_pos hn] at hc
      simp at hc
      exact ⟨n, hn, hc⟩
    · unfold natDigits at hc
      rw [dif_neg hn] at hc
      rw [List.mem_append] at hc
      cases hc with
      | inl hc => exact ih (n / 10) (Nat.div_lt_self (by omega) (by omega)) c hc
      | inr hc =>
        simp at hc
        exact ⟨n % 10, Nat.mod_lt _ (by omega), hc⟩

/-- Folding the digit list of `n` under the decimal accumulator recovers `n`
(shifted past any previous accumulator). -/
theorem natDigits_foldl (n : Nat) : ∀ a : Nat,
    (natDigits n).foldl (fun a c => 10 * a + (c.toNat - 48)) a
      = a * 10 ^ (natDigits n).length + n := by
  induction n using Nat.strong_induction_on with
  | _ n ih =>
    intro a
    by_cases hn : n < 10
    · unfold natDigits
      rw [dif_pos hn]
      simp only [List.foldl_cons, List.foldl_nil, List.length_singleton, pow_one]
      rw [(digitChar_facts n hn).2.2.2.2]
      omega
    · conv_lhs => rw [natDigits]
      conv_rhs => rw [natDigits]
      rw [dif_neg hn]
      rw [List.foldl_append]
      rw [ih (n / 10) (Nat.div_lt_self (by omega) (by omega)) a]
      simp only [List.foldl_cons, List.foldl_nil, List.length_append, List.length_singleton]
      rw [(digitChar_facts (n % 10) (Nat.mod_lt _ (by omega))).2.2.2.2]
      rw [pow_succ]
      have hmul : a * (10 ^ (natDigits (n / 10)).length * 10)
          = 10 * (a * 10 ^ (natDigits (n / 10)).length) := by ring
      rw [hmul]
      omega

/-- `digitsToNat` inverts `natDigits`. -/
theorem digitsToNat_natDigits (n : Nat) : digitsToNat (natDigits n) = n := by
  unfold digitsToNat
  rw [natDigits_foldl n 0]
  simp

/-- Stripping a list with no whitespace anywhere changes nothing. -/
theorem stripData_eq_self {l : List Char} (h : ∀ c ∈ l, c.isWhitespace = false) :
    stripData l = l := by
  unfold stripData
  have h1 : l.dropWhile Char.isWhitespace = l := by
    cases l with
    | nil => rfl
    | cons a t =>
      rw [List.dropWhile_cons]
      simp [h a (List.mem_cons_self a t)]
  rw [h1]
  have h2 : l.reverse.dropWhile Char.isWhitespace = l.reverse := by
    cases hr : l.reverse with
    | nil => rfl
    | cons a t =>
      have ha : a ∈ l := by
        rw [← List.mem_reverse, hr]
        exact List.mem_cons_self a t
      rw [List.dropWhile_cons]
      simp [h a ha]
  rw [h2, List.reverse_reverse]

/-- `Nat.repr` spells exactly the digit list of `natDigits`. -/
theorem natRepr_eq (m : Nat) : Nat.repr m = String.mk (natDigits m) := by
  show (Nat.toDigits 10 m).asString = _
  rw [Nat.toDigits, toDigitsCore_eq_natDigits (m + 1) m [] (Nat.lt_succ_self m),
    List.append_nil]
  rfl

/-- Reduction of `pyIntOfString` once the stripped character list is known. -/
theorem pyIntOfString_cons (c : Char) (cs : List Char) (s : String)
    (h : (pyStrip s).data = c :: cs) :
    pyIntOfString s =
      (if c = '+' then
        if cs ≠ [] ∧ cs.all Char.isDigit then some (Int.ofNat (digitsToNat cs)) else none
      else if c = '-' then
        if cs ≠ [] ∧ cs.all Char.isDigit then some (-(Int.ofNat (digitsToNat cs))) else none
      else if (c :: cs).all Char.isDigit then some (Int.ofNat (digitsToNat (c :: cs)))
      else none) := by
  unfold pyIntOfString
  rw [h]

/-- Python's `int(...)` recovers a natural number from its decimal spelling. -/
theorem pyIntOfString_natRepr (m : Nat) : pyIntOfString (Nat.repr m) = some (Int.ofNat m) := by
  rw [natRepr_eq]
  have hmem : ∀ c ∈ natDigits m, c.isWhitespace = false := fun c hc => by
    obtain ⟨k, hk, rfl⟩ := mem_natDigits m c hc
    exact (digitChar_facts k hk).1
  obtain ⟨c, cs, hnd⟩ := List.exists_cons_of_ne_nil (natDigits_ne_nil m)
  have hdata : (pyStrip (String.mk (natDigits m))).data = c :: cs := by
    show stripData (natDigits m) = c :: cs
    rw [stripData_eq_self hmem]
    exact hnd
  rw [pyIntOfString_cons c cs _ hdata]
  have hc : c ∈ natDigits m := by
    rw [hnd]
    exact List.mem_cons_self c cs
  obtain ⟨k, hk, hck⟩ := mem_natDigits m c hc
  have hfacts := digitChar_facts k hk
  have halldig : (c :: cs).all Char.isDigit = true := by
    rw [← hnd, List.all_eq_true]
    intro x hx
    obtain ⟨k2, hk2, rfl⟩ := mem_natDigits m x hx
    exact (digitChar_facts k2 hk2).2.2.2.1
  rw [if_neg (by rw [hck]; exact hfacts.2.1), if_neg (by rw [hck]; exact hfacts.2.2.1),
    if_pos halldig, ← hnd, digitsToNat_natDigits]

/-- Python's `int(str(i))` round-trips for every integer `i` — the guard's
`int(user_id)` recovers exactly the id that `str(user_id)` embedded. -/
theorem pyInt_toString_roundtrip (i : Int) : pyIntOfString (toString i) = some i := by
  cases i with
  | ofNat m => exact pyIntOfString_natRepr m
  | negSucc m =>
    have hts : toString (Int.negSucc m) = "-" ++ Nat.repr (m + 1) := rfl
    rw [hts, natRepr_eq]
    have hmem : ∀ c ∈ '-' :: natDigits (m + 1), c.isWhitespace = false := by
      intro c hc
      rw [List.mem_cons] at hc
      cases hc with
      | inl hc => rw [hc]; decide
      | inr hc =>
        obtain ⟨k, hk, rfl⟩ := mem_natDigits (m + 1) c hc
        exact (digitChar_facts k hk).1
    have hdata : (pyStrip ("-" ++ String.mk (natDigits (m + 1)))).data
        = '-' :: natDigits (m + 1) := by
      show stripData (("-" ++ String.mk (natDigits (m + 1))).data) = '-' :: natDigits (m + 1)
      rw [show ("-" ++ String.mk (natDigits (m + 1))).data = '-' :: natDigits (m + 1) from rfl]
      rw [stripData_eq_self hmem]
    rw [pyIntOfString_cons '-' (natDigits (m + 1)) _ hdata]
    have halldig : (natDigits (m + 1)).all Char.isDigit = true := by
      rw [List.all_eq_true]
      intro x hx
      obtain ⟨k2, hk2, rfl⟩ := mem_natDigits (m + 1) x hx
      exact (digitChar_facts k2 hk2).2.2.2.1
    rw [if_neg (by decide : ¬ ('-' : Char) = '+'),
      if_pos (by decide : ('-' : Char) = '-'),
      if_pos ⟨natDigits_ne_nil (m + 1), halldig⟩, digitsToNat_natDigits]
    simp [Int.negSucc_eq]

/-! ## The guard and refresh accept either token kind (C10) -/

/-- The guard accepts any validly signed, unexpired token whose subject is
the decimal id of an active account — it never looks at the purpose tag. -/
theorem get_current_user_ok (st : Settings) (db : List User) (claims : JwtClaims)
    (uid : Int) (user : User) (t : Nat)
    (hsub : claims.sub = some (toString uid))
    (hexp : ¬ claims.exp < t)
    (hdb : UserService.get_by_id db uid = some user)
    (hact : user.is_active = true) :
    get_current_user st db (some (joseEncode claims st.JWT_SECRET_KEY st.JWT_ALGORITHM)) t
      = .ok user := by
  have hdec := decode_token_ok st claims t hexp
  have hne : toString uid ≠ "" := by
    intro h0
    have hrt := pyInt_toString_roundtrip uid
    rw [h0] at hrt
    simp [pyIntOfString, pyStrip, stripData] at hrt
  simp [get_current_user, hdec, hsub, hne, pyInt_toString_roundtrip, hdb, hact]

/-- The refresh route accepts any validly signed, unexpired token whose
subject resolves — it never looks at the purpose tag, and does not even
require the account to be active. -/
theorem refresh_route_ok (st : Settings) (db : List User) (claims : JwtClaims)
    (uid : Int) (user : User) (t : Nat)
    (hsub : claims.sub = some (toString uid))
    (hexp : ¬ claims.exp < t)
    (hdb : UserService.get_by_id db uid = some user) :
    AuthRoutes.refresh_token st db (joseEncode claims st.JWT_SECRET_KEY st.JWT_ALGORITHM) t
      = .ok (create_access_token st user.id t, create_refresh_token st user.id t, user) := by
  have hdec := decode_token_ok st claims t hexp
  simp [AuthRoutes.refresh_token, hdec, hsub, pyInt_toString_roundtrip, hdb]

/-- C10.  No operation inspects a decoded token's purpose tag: a valid
unexpired refresh token passes the authentication guard exactly as an access
token does (same resolved account), a valid unexpired access token is
accepted by the Refresh operation and mints a fresh token pair, and
`decode_token`'s outcome is unchanged under any rewriting of the `type`
claim (with the signature recomputed), succeeding with the retagged payload
exactly when it succeeded before. -/
theorem c10_purpose_tag_never_checked (st : Settings) (db : List User) (uid : Int)
    (user : User) (issue t : Nat) :
    (UserService.get_by_id db uid = some user → user.is_active = true →
      (t < issue + st.JWT_REFRESH_TOKEN_EXPIRE_DAYS * 86400 →
        get_current_user st db (some (create_refresh_token st uid issue)) t = .ok user)
      ∧ (t < issue + st.JWT_ACCESS_TOKEN_EXPIRE_MINUTES * 60 →
        get_current_user st db (some (create_access_token st uid issue)) t = .ok user))
    ∧ (UserService.get_by_id db uid = some user →
        t < issue + st.JWT_ACCESS_TOKEN_EXPIRE_MINUTES * 60 →
        AuthRoutes.refresh_token st db (create_access_token st uid issue) t
          = .ok (create_access_token st user.id t, create_refresh_token st user.id t, user))
    ∧ (∀ claims : JwtClaims, ∀ typ2 : String, ∀ now : Nat,
        decode_token st (joseEncode { claims with typ := typ2 }
            st.JWT_SECRET_KEY st.JWT_ALGORITHM) now
          = (decode_token st (joseEncode claims st.JWT_SECRET_KEY st.JWT_ALGORITHM) now).map
              (fun c => { c with typ := typ2 })) := by
  refine ⟨?_, ?_, ?_⟩
  · intro hdb hact
    constructor
    · intro ht
      exact get_current_user_ok st db _ uid user t rfl (by simp [refreshPayload]; omega) hdb hact
    · intro ht
      exact get_current_user_ok st db _ uid user t rfl (by simp [accessPayload]; omega) hdb hact
  · intro hdb ht
    exact refresh_route_ok st db _ uid user t rfl (by simp [accessPayload]; omega) hdb
  · intro claims typ2 now
    by_cases hexp : claims.exp < now
    · have h1 := (c5_uniform_decode_failure st (.malformed "") now "").2.2.2.2
        ⟨st.JWT_ALGORITHM, { claims with typ := typ2 },
          macSign st.JWT_SECRET_KEY { claims with typ := typ2 }⟩ hexp
      have h2 := (c5_uniform_decode_failure st (.malformed "") now "").2.2.2.2
        ⟨st.JWT_ALGORITHM, claims, macSign st.JWT_SECRET_KEY claims⟩ hexp
      rw [joseEncode, joseEncode, h1, h2]
      rfl
    · rw [decode_token_ok st { claims with typ := typ2 } now hexp,
        decode_token_ok st claims now hexp]
      rfl

/-- Witness for C10: the guard accepts the refresh token of user 1 as if it
were an access token, and the refresh route accepts user 1's access token
and mints a fresh pair. -/
theorem c10_purpose_tag_never_checked_witness :
    get_current_user stTest db1 (some (create_refresh_token stTest 1 0)) 5 = .ok alice
    ∧ AuthRoutes.refresh_token stTest db1 (create_access_token stTest 1 0) 5
      = .ok (create_access_token stTest alice.id 5, create_refresh_token stTest alice.id 5,
          alice) := by
  have h := c10_purpose_tag_never_checked stTest db1 1 alice 0 5
  exact ⟨(h.1 (by decide) (by decide)).1 (by decide), h.2.1 (by decide) (by decide)⟩

/-! ## Validation of the SHA-256 embedding against the FIPS 180-4 vectors -/

/-- The embedded SHA-256 reproduces the official test vectors, so `_prehash`
computes the digests the Python `hashlib.sha256` computes. -/
theorem sha256_fips_vectors :
    sha256hexBytes (utf8Bytes "abc")
      = "ba7816bf8f01cfea414140de5dae2223b00361a396177a9cb410ff61f20015ad"
    ∧ sha256hexBytes (utf8Bytes "")
      = "e3b0c44298fc1c149afbf4c8996fb92427ae41e4649b934ca495991b7852b855" := by
  constructor <;> decide

/-- A 500-character password — seven times bcrypt's raw 72-byte limit —
hashes successfully and verifies against its own hash. -/
theorem long_password_roundtrip :
    hash_password (String.mk (List.replicate 500 'a'))
      = .ok (mkBcryptHash (_prehash (String.mk (List.replicate 500 'a'))))
    ∧ verify_password (String.mk (List.replicate 500 'a'))
        (mkBcryptHash (_prehash (String.mk (List.replicate 500 'a')))) = .ok true := by
  constructor
  · exact hash_password_eq _
  · rw [verify_password_mk]
    simp
